import Mathlib

set_option linter.unusedVariables false

/-!
Verification of the asynchronous email delivery subsystem of the `pressure`
repository: the queue write path (`NetlifyBlobsEmailService.sendEmail`), the
queue drain endpoint (the `process-email-queue` handler in
`netlify/functions/verify-and-send.ts`), the provider factory
(`src/lib/email/factory.ts`) and the concrete transport strategies.

The Netlify blob store is modelled as an association list from keys to
stored jobs; asynchronous store and network I/O failures are modelled by
explicit fault-injection parameters (`Faults`, `FetchOutcome`).
-/

namespace Pressure

/-- A queued email job, as stored in the blob store: the `EmailJob` interface of
`netlify/functions/verify-and-send.ts`, which is also exactly the object built
by `NetlifyBlobsEmailService.sendEmail`. -/
structure EmailJob where
  id : String
  «to» : List String
  cc : Option (List String)
  bcc : Option (List String)
  subject : String
  text : String
  html : Option String
  «from» : String
  fromName : String
  createdAt : Nat
deriving Repr, DecidableEq

/-- JavaScript truthiness of an optional string (an environment variable or an
optional field): `undefined` and the empty string are falsy, every other
string is truthy. -/
def jsTruthy : Option String → Option String
  | some s => if s = "" then none else some s
  | none => none

/-- The JavaScript expression `o || d` for an optional string `o` and a string
default `d`. -/
def jsOr (o : Option String) (d : String) : String :=
  match jsTruthy o with
  | some s => s
  | none => d

/-- `getEnvVar(newName, oldName)` from `src/lib/email/factory.ts`:
`process.env[newName] || process.env[oldName]` (the old value is returned
unfiltered; its own truthiness is checked by the caller). -/
def getEnvVar (newVal oldVal : Option String) : Option String :=
  match jsTruthy newVal with
  | some s => some s
  | none => oldVal

/-- A recipient field of a send request: `string | string[]` in the source. -/
inductive Recipients where
  | one (addr : String)
  | many (addrs : List String)
deriving Repr, DecidableEq

/-- The `EmailOptions` input of every `sendEmail` implementation. -/
structure EmailOptions where
  «to» : Recipients
  cc : Option Recipients := none
  bcc : Option Recipients := none
  subject : String
  text : String
  html : Option String := none
  «from» : Option String := none
  fromName : Option String := none
deriving Repr, DecidableEq

/-- The `EmailResult` returned by every `sendEmail` implementation. -/
structure EmailResult where
  success : Bool
  messageId : Option String := none
  error : Option String := none
deriving Repr, DecidableEq

/-- `BaseEmailService.normalizeRecipients`: wrap a single address in an array. -/
def normalizeRecipients : Recipients → List String
  | .one a => [a]
  | .many l => l

/-- `BaseEmailService.getSender`: `from || this.fromEmail`. -/
def getSender (fromEmail : String) (o : Option String) : String :=
  jsOr o fromEmail

/-- `BaseEmailService.getSenderName`: `fromName || this.fromName`. -/
def getSenderName (fromName : String) (o : Option String) : String :=
  jsOr o fromName

/-- The durable queue store: a key-addressed map of pending jobs, modelled as
an association list (keys are unique in any store produced by the system). -/
abbrev Store := List (String × EmailJob)

/-- Point read (`store.get(key)`): the record stored under `k`, if any. -/
def lookupStore : Store → String → Option EmailJob
  | [], _ => none
  | (k', v) :: rest, k => if k' = k then some v else lookupStore rest k

/-- Point delete (`store.delete(key)`): removes every entry keyed `k`;
deleting an absent key is a no-op. -/
def eraseStore : Store → String → Store
  | [], _ => []
  | (k', v) :: rest, k => if k' = k then eraseStore rest k else (k', v) :: eraseStore rest k

/-- Keyed write (`store.setJSON(key, value)`): overwrites any entry under `k`. -/
def putStore (st : Store) (k : String) (v : EmailJob) : Store :=
  eraseStore st k ++ [(k, v)]

/-- JavaScript truthiness of a `string | string[]` recipient value: the empty
string is falsy; every other string, and every array (even the empty array),
is truthy. -/
def recipientsTruthy : Recipients → Bool
  | .one a => a ≠ ""
  | .many _ => true

/-- `field ? this.normalizeRecipients(field) : undefined` for an optional
recipient field: a missing or falsy (empty-string) value yields `undefined`;
a truthy value is normalized to an array. -/
def normalizeOptField : Option Recipients → Option (List String)
  | some r => if recipientsTruthy r then some (normalizeRecipients r) else none
  | none => none

/-- The email job object built by `NetlifyBlobsEmailService.sendEmail` from a
send request: `id` is the generated uuid, recipients are normalized (`cc` and
`bcc` behind the source's truthiness check), sender fields fall back to the
service defaults, `createdAt` is `Date.now()`. -/
def mkEmailJob (fromEmail fromName : String) (jobId : String) (now : Nat)
    (options : EmailOptions) : EmailJob :=
  { id := jobId
    «to» := normalizeRecipients options.«to»
    cc := normalizeOptField options.cc
    bcc := normalizeOptField options.bcc
    subject := options.subject
    text := options.text
    html := options.html
    «from» := getSender fromEmail options.«from»
    fromName := getSenderName fromName options.fromName
    createdAt := now }

/-- `NetlifyBlobsEmailService.sendEmail`. `jobId` stands for the generated
uuid, `now` for `Date.now()`. `putOk` models whether `store.setJSON`
succeeds; when it throws, `putErr` is the thrown `Error`'s message (`none`
models a thrown non-`Error` value, mapped to `"Unknown error"`). Returns the
`EmailResult` together with the store after the call. -/
def netlifyBlobsSendEmail (fromEmail fromName : String) (jobId : String) (now : Nat)
    (putOk : Bool) (putErr : Option String) (options : EmailOptions) (st : Store) :
    EmailResult × Store :=
  if putOk then
    ({ success := true, messageId := some jobId, error := none },
     putStore st jobId (mkEmailJob fromEmail fromName jobId now options))
  else
    ({ success := false, messageId := none, error := some (putErr.getD "Unknown error") }, st)

/-- `ConsoleEmailService.sendEmail`: logs to the console only and reports
success with a timestamp-derived message id; no store write, no network call. -/
def consoleSendEmail (fromEmail fromName : String) (now : Nat)
    (options : EmailOptions) : EmailResult :=
  { success := true, messageId := some ("console-" ++ toString now), error := none }

/-- Observable outcome of the single `fetch` call a network provider strategy
makes: the call throws (a transport or serialization failure, carrying the
`Error` message if the thrown value was an `Error`), returns a non-ok HTTP
response with some status, or returns an ok response carrying the provider's
message id (the `x-message-id` header for SendGrid, the JSON body's `id` for
Mailgun). -/
inductive FetchOutcome where
  | throws (msg : Option String)
  | badResponse (status : Nat)
  | okResponse (payloadId : Option String)
deriving Repr, DecidableEq

/-- `SendGridEmailService.sendEmail`: result mapping of the `fetch` to the
SendGrid API (`now` stands for `Date.now()`, used for the fallback message id
when `headers.get('x-message-id')` is absent or falsy, per the source's
`||`). -/
def sendGridSend (apiKey fromEmail fromName : String) (now : Nat)
    (options : EmailOptions) (outcome : FetchOutcome) : EmailResult :=
  match outcome with
  | .throws msg =>
      { success := false, messageId := none, error := some (msg.getD "Unknown error") }
  | .badResponse status =>
      { success := false, messageId := none
        error := some ("SendGrid API error: " ++ toString status) }
  | .okResponse hdr =>
      { success := true, messageId := some (jsOr hdr ("sendgrid-" ++ toString now))
        error := none }

/-- `MailgunEmailService.sendEmail`: result mapping of the `fetch` to the
Mailgun API. On an ok response the message id is the response JSON's `id`. -/
def mailgunSend (apiKey domain fromEmail fromName : String)
    (options : EmailOptions) (outcome : FetchOutcome) : EmailResult :=
  match outcome with
  | .throws msg =>
      { success := false, messageId := none, error := some (msg.getD "Unknown error") }
  | .badResponse status =>
      { success := false, messageId := none
        error := some ("Mailgun API error: " ++ toString status) }
  | .okResponse payloadId =>
      { success := true, messageId := payloadId, error := none }

/-- The concrete strategy constructed by the factory, with the constructor
arguments it was given. -/
inductive EmailServiceKind where
  | sendgrid (apiKey fromEmail fromName : String)
  | mailgun (apiKey domain fromEmail fromName : String)
  | netlifyBlobs (fromEmail fromName storeName : String)
  | console (fromEmail fromName : String)
deriving Repr, DecidableEq

/-- The environment variables read by `createEmailService`, each an optional
string exactly as `process.env` presents them. -/
structure Env where
  emailProvider : Option String := none
  emailFrom : Option String := none
  emailFromName : Option String := none
  emailSendgridApiKey : Option String := none
  emailApiKey : Option String := none
  emailMailgunApiKey : Option String := none
  emailMailgunDomain : Option String := none
  mailgunDomain : Option String := none
  emailNetlifyBlobsStoreName : Option String := none
  emailQueueStoreName : Option String := none
deriving Repr, DecidableEq

/-- `provider.toLowerCase()` for the ASCII provider names the factory compares
against: lowercase every character. -/
def strLower (s : String) : String :=
  String.mk (s.data.map Char.toLower)

/-- `createEmailService` from `src/lib/email/factory.ts`. A thrown
configuration error is `Except.error` with the thrown message. The source's
`switch` on `provider.toLowerCase()` is rendered as an equality chain; its
explicit `case 'console':` shares a body with `default:`, so both land in the
final branch here. -/
def createEmailService (env : Env) : Except String EmailServiceKind :=
  let provider := jsOr env.emailProvider "console"
  let fromEmail := jsOr env.emailFrom "noreply@example.com"
  let fromName := jsOr env.emailFromName "Pressure Campaign"
  let p := strLower provider
  if p = "sendgrid" then
    match jsTruthy (getEnvVar env.emailSendgridApiKey env.emailApiKey) with
    | some key => .ok (.sendgrid key fromEmail fromName)
    | none => .error "EMAIL_SENDGRID_API_KEY is required for SendGrid"
  else if p = "mailgun" then
    match jsTruthy (getEnvVar env.emailMailgunApiKey env.emailApiKey),
          jsTruthy (getEnvVar env.emailMailgunDomain env.mailgunDomain) with
    | some key, some dom => .ok (.mailgun key dom fromEmail fromName)
    | _, _ => .error "EMAIL_MAILGUN_API_KEY and EMAIL_MAILGUN_DOMAIN are required for Mailgun"
  else if p = "netlify-blobs" then
    let storeName := jsOr (getEnvVar env.emailNetlifyBlobsStoreName env.emailQueueStoreName)
      "email-queue"
    .ok (.netlifyBlobs fromEmail fromName storeName)
  else
    .ok (.console fromEmail fromName)

/-- Number of outbound `fetch` calls one `sendEmail` invocation of each
strategy performs: SendGrid and Mailgun each call `fetch` exactly once;
the console and netlify-blobs strategies contain no network call at all. -/
def networkCallsOf : EmailServiceKind → Nat
  | .sendgrid _ _ _ => 1
  | .mailgun _ _ _ _ => 1
  | .netlifyBlobs _ _ _ => 0
  | .console _ _ => 0

/-- Outcome of one `store.get(key, {type:'json'})` call in the drain loop:
succeeds (returning whatever the store holds), returns `null` although
nothing deleted the key (the injected-absence fault), or throws. -/
inductive GetOutcome where
  | ok
  | absent
  | err
deriving Repr, DecidableEq

/-- Injected store faults for one drain call: per-key `get` outcome, per-key
`delete` throw, and whether `store.list()` itself throws. -/
structure Faults where
  getFault : String → GetOutcome
  deleteFault : String → Bool
  listFault : Bool

/-- A drain call during which the store performs flawlessly. -/
def cleanFaults : Faults :=
  { getFault := fun _ => .ok, deleteFault := fun _ => false, listFault := false }

/-- A drain call during which `get` fails with outcome `o` for the single key
`k` and every other operation succeeds. -/
def faultOn (k : String) (o : GetOutcome) : Faults :=
  { getFault := fun q => if q = k then o else .ok
    deleteFault := fun _ => false
    listFault := false }

/-- The characters matched by the regex class `\s` that can occur in an ASCII
header value. -/
def isJsSpace (c : Char) : Bool :=
  c = ' ' || c = '\t' || c = '\n' || c = '\r' || c = '\x0b' || c = '\x0c'

/-- `authHeader.replace(/^Bearer\s+/i, '')`: strip one leading
case-insensitive `Bearer` followed by at least one whitespace character
(greedily); any other string is returned unchanged. -/
def stripBearer (s : String) : String :=
  match s.data with
  | b :: e₁ :: a :: r₁ :: e₂ :: r₂ :: c :: rest =>
    if b.toLower = 'b' && e₁.toLower = 'e' && a.toLower = 'a' && r₁.toLower = 'r'
        && e₂.toLower = 'e' && r₂.toLower = 'r' && isJsSpace c then
      String.mk (rest.dropWhile isJsSpace)
    else s
  | _ => s

/-- Configuration of the drain endpoint: the optional
`EMAIL_NETLIFY_BLOBS_API_KEY` shared secret and the resolved
`EMAIL_NETLIFY_BLOBS_DEFAULT_BATCH_SIZE` (10 when the variable is unset). -/
structure DrainConfig where
  apiKey : Option String
  defaultBatchSize : Nat
deriving Repr, DecidableEq

/-- A drain request: HTTP method, optional `Authorization` header value, and
the parsed body's optional `limit` (`some 0` models a falsy literal 0). -/
structure DrainRequest where
  httpMethod : String
  authHeader : Option String
  limit : Option Nat
deriving Repr, DecidableEq

/-- `validateApiKey` from `netlify/functions/verify-and-send.ts`: with no
(truthy) configured key every request passes; otherwise the header value,
stripped of its `Bearer` prefix, must equal the key (a missing header never
equals the configured, necessarily truthy, key). -/
def validateApiKey (cfg : DrainConfig) (authHeader : Option String) : Bool :=
  match jsTruthy cfg.apiKey with
  | none => true
  | some key =>
    match authHeader with
    | none => false
    | some h => stripBearer h = key

/-- `request.limit || defaultBatchSize`: a missing or zero (falsy) limit
falls back to the configured default batch size. -/
def resolveLimit (cfg : DrainConfig) (l : Option Nat) : Nat :=
  match l with
  | none => cfg.defaultBatchSize
  | some n => if n = 0 then cfg.defaultBatchSize else n

/-- One iteration of the drain loop at key `k`: `get` the record (a throw or
a `null` result skips the key with no delete); on a successful read, `delete`
(a throw there is caught, and the job is then not pushed); only after a
successful delete is the job appended to the accumulated batch. -/
def drainKey (f : Faults) (st : Store) (jobs : List EmailJob) (k : String) :
    Store × List EmailJob :=
  match f.getFault k with
  | .err => (st, jobs)
  | .absent => (st, jobs)
  | .ok =>
    match lookupStore st k with
    | none => (st, jobs)
    | some job =>
      if f.deleteFault k then (st, jobs)
      else (eraseStore st k, jobs ++ [job])

/-- The drain loop: process the selected keys in order, threading the store
and the accumulated batch. -/
def drainLoop (f : Faults) : Store → List String → List EmailJob → Store × List EmailJob
  | st, [], acc => (st, acc)
  | st, k :: ks, acc =>
    let p := drainKey f st acc k
    drainLoop f p.1 ks p.2

/-- The response of the `process-email-queue` handler: status code, the
returned jobs batch, the `returned` count, and the error body (if any). -/
structure DrainResponse where
  statusCode : Nat
  jobs : List EmailJob
  returned : Nat
  error : Option String
deriving Repr, DecidableEq

/-- The `process-email-queue` handler: reject non-POST with 405; reject a
failed API-key check with 401 before any store access; a throwing
`store.list()` yields 500; otherwise resolve the limit, take the first
`limit` listed keys (the store's own order), run the drain loop, and answer
200 with the claimed jobs and their count. Returns the response together with
the store after the call. -/
def processEmailQueue (cfg : DrainConfig) (f : Faults) (req : DrainRequest)
    (st : Store) : DrainResponse × Store :=
  if req.httpMethod ≠ "POST" then
    ({ statusCode := 405, jobs := [], returned := 0, error := some "Method not allowed" }, st)
  else if ¬ validateApiKey cfg req.authHeader then
    ({ statusCode := 401, jobs := [], returned := 0, error := some "Unauthorized" }, st)
  else if f.listFault then
    ({ statusCode := 500, jobs := [], returned := 0, error := some "Failed to process request" },
     st)
  else
    let limit := resolveLimit cfg req.limit
    let keys := (st.map Prod.fst).take limit
    let p := drainLoop f st keys []
    ({ statusCode := 200, jobs := p.2, returned := p.2.length, error := none }, p.1)

/-- A concrete stored job used to instantiate theorems on concrete inputs. -/
def sampleJob : EmailJob :=
  { id := "job-1", «to» := ["mp@example.org"], cc := none, bcc := none
    subject := "Act now", text := "Please act.", html := none
    «from» := "noreply@example.com", fromName := "Campaign", createdAt := 0 }

/-- A second concrete stored job, under a distinct key. -/
def sampleJob2 : EmailJob := { sampleJob with id := "job-2" }

/-- A third concrete stored job, under a distinct key. -/
def sampleJob3 : EmailJob := { sampleJob with id := "job-3" }

lemma drainLoop_nil (f : Faults) (st : Store) (acc : List EmailJob) :
    drainLoop f st [] acc = (st, acc) := rfl

lemma drainLoop_cons (f : Faults) (st : Store) (k : String) (ks : List String)
    (acc : List EmailJob) :
    drainLoop f st (k :: ks) acc
      = drainLoop f (drainKey f st acc k).1 ks (drainKey f st acc k).2 := rfl

lemma lookup_eraseStore_self (st : Store) (k : String) :
    lookupStore (eraseStore st k) k = none := by
  induction st with
  | nil => rfl
  | cons e rest ih =>
    obtain ⟨k', v⟩ := e
    by_cases h : k' = k
    · simp [eraseStore, h, ih]
    · simp [eraseStore, lookupStore, h, ih]

lemma lookup_eraseStore_ne (st : Store) (k q : String) (hqk : q ≠ k) :
    lookupStore (eraseStore st k) q = lookupStore st q := by
  induction st with
  | nil => rfl
  | cons e rest ih =>
    obtain ⟨k', v⟩ := e
    by_cases h : k' = k
    · have hkq : ¬ (k = q) := fun hh => hqk hh.symm
      simp [eraseStore, lookupStore, h, hkq, ih]
    · by_cases hq : k' = q
      · simp [eraseStore, lookupStore, h, hq, hqk, ih]
      · simp [eraseStore, lookupStore, h, hq, ih]

lemma mem_eraseStore {st : Store} {k : String} {e : String × EmailJob}
    (h : e ∈ eraseStore st k) : e ∈ st := by
  induction st with
  | nil => simp [eraseStore] at h
  | cons e' rest ih =>
    obtain ⟨k', v⟩ := e'
    by_cases hk : k' = k
    · rw [eraseStore, if_pos hk] at h
      exact List.mem_cons_of_mem _ (ih h)
    · rw [eraseStore, if_neg hk] at h
      rcases List.mem_cons.mp h with h | h
      · exact h ▸ List.mem_cons_self _ _
      · exact List.mem_cons_of_mem _ (ih h)

lemma mem_eraseStore_fst_ne {st : Store} {k : String} {e : String × EmailJob}
    (h : e ∈ eraseStore st k) : e.1 ≠ k := by
  induction st with
  | nil => simp [eraseStore] at h
  | cons e' rest ih =>
    obtain ⟨k', v⟩ := e'
    by_cases hk : k' = k
    · rw [eraseStore, if_pos hk] at h
      exact ih h
    · rw [eraseStore, if_neg hk] at h
      rcases List.mem_cons.mp h with h | h
      · rw [h]
        exact hk
      · exact ih h

lemma lookup_mem {st : Store} {k : String} {v : EmailJob}
    (h : lookupStore st k = some v) : (k, v) ∈ st := by
  induction st with
  | nil => simp [lookupStore] at h
  | cons e rest ih =>
    obtain ⟨k', w⟩ := e
    by_cases hk : k' = k
    · rw [lookupStore, if_pos hk] at h
      rw [← hk, Option.some_inj.mp h]
      exact List.mem_cons_self _ _
    · rw [lookupStore, if_neg hk] at h
      exact List.mem_cons_of_mem _ (ih h)

lemma eraseStore_of_not_mem {st : Store} {k : String}
    (h : k ∉ st.map Prod.fst) : eraseStore st k = st := by
  induction st with
  | nil => rfl
  | cons e rest ih =>
    obtain ⟨k', v⟩ := e
    simp only [List.map_cons, List.mem_cons, not_or] at h
    rw [eraseStore, if_neg (fun hh => h.1 hh.symm), ih h.2]

lemma lookup_append (xs ys : Store) (q : String) :
    lookupStore (xs ++ ys) q = (lookupStore xs q).or (lookupStore ys q) := by
  induction xs with
  | nil => simp [lookupStore]
  | cons e rest ih =>
    obtain ⟨k', v⟩ := e
    by_cases h : k' = q <;> simp [lookupStore, h, ih]

lemma lookup_filter_eq (st : Store) (k : String) :
    lookupStore (st.filter (fun e => decide (e.1 = k))) k = lookupStore st k := by
  induction st with
  | nil => rfl
  | cons e rest ih =>
    obtain ⟨k', v⟩ := e
    by_cases h : k' = k <;> simp [lookupStore, List.filter_cons, h, ih]

lemma lookup_putStore_self (st : Store) (k : String) (v : EmailJob) :
    lookupStore (putStore st k v) k = some v := by
  rw [putStore, lookup_append, lookup_eraseStore_self]
  simp [lookupStore]

lemma length_eraseStore_add_one {st : Store} {k : String}
    (hn : (st.map Prod.fst).Nodup) (hm : k ∈ st.map Prod.fst) :
    (eraseStore st k).length + 1 = st.length := by
  induction st with
  | nil => simp at hm
  | cons e rest ih =>
    obtain ⟨k', v⟩ := e
    simp only [List.map_cons, List.nodup_cons] at hn
    simp only [List.map_cons, List.mem_cons] at hm
    by_cases h : k' = k
    · rw [eraseStore, if_pos h, ← h, eraseStore_of_not_mem hn.1]
      simp
    · rcases hm with hm | hm
      · exact absurd hm.symm h
      · have := ih hn.2 hm
        rw [eraseStore, if_neg h]
        simp only [List.length_cons]
        omega

lemma drainLoop_clean (st : Store) :
    ∀ (L : Nat) (acc : List EmailJob),
      (st.map Prod.fst).Nodup →
      drainLoop cleanFaults st ((st.map Prod.fst).take L) acc
        = (st.drop L, acc ++ (st.take L).map Prod.snd) := by
  induction st with
  | nil => intro L acc _; simp [drainLoop_nil]
  | cons e rest ih =>
    obtain ⟨k, j⟩ := e
    intro L acc hn
    simp only [List.map_cons, List.nodup_cons] at hn
    cases L with
    | zero => simp [drainLoop_nil]
    | succ L =>
      rw [List.map_cons, List.take_succ_cons, drainLoop_cons]
      have hdk : drainKey cleanFaults ((k, j) :: rest) acc k = (rest, acc ++ [j]) := by
        simp [drainKey, cleanFaults, lookupStore, eraseStore, eraseStore_of_not_mem hn.1]
      rw [hdk, ih L (acc ++ [j]) hn.2]
      simp

lemma drainKey_cons_ne (f : Faults) (k q : String) (j : EmailJob) (st : Store)
    (acc : List EmailJob) (h : q ≠ k) :
    drainKey f ((k, j) :: st) acc q
      = ((k, j) :: (drainKey f st acc q).1, (drainKey f st acc q).2) := by
  have hkq : ¬ (k = q) := fun hh => h hh.symm
  cases hg : f.getFault q with
  | err => simp [drainKey, hg]
  | absent => simp [drainKey, hg]
  | ok =>
    simp only [drainKey, hg, lookupStore, if_neg hkq]
    cases hl : lookupStore st q with
    | none => simp
    | some v =>
      by_cases hd : f.deleteFault q
      · simp [hd]
      · simp [hd, eraseStore, if_neg hkq]

lemma drainLoop_cons_notin (f : Faults) :
    ∀ (ks : List String) (k : String) (j : EmailJob) (st : Store) (acc : List EmailJob),
      k ∉ ks →
      drainLoop f ((k, j) :: st) ks acc
        = ((k, j) :: (drainLoop f st ks acc).1, (drainLoop f st ks acc).2) := by
  intro ks
  induction ks with
  | nil => intro k j st acc _; simp [drainLoop_nil]
  | cons q ks ih =>
    intro k j st acc h
    have h1 : k ≠ q := fun hh => h (by simp [hh])
    have h2 : k ∉ ks := fun hh => h (List.mem_cons_of_mem _ hh)
    rw [drainLoop_cons, drainKey_cons_ne f k q j st acc (Ne.symm h1), drainLoop_cons]
    exact ih k j (drainKey f st acc q).1 (drainKey f st acc q).2 h2

lemma drainLoop_faultOn (k : String) (o : GetOutcome) (ho : o ≠ GetOutcome.ok) (st : Store) :
    ∀ (L : Nat) (acc : List EmailJob),
      (st.map Prod.fst).Nodup →
      drainLoop (faultOn k o) st ((st.map Prod.fst).take L) acc
        = ((st.take L).filter (fun e => decide (e.1 = k)) ++ st.drop L,
           acc ++ (eraseStore (st.take L) k).map Prod.snd) := by
  induction st with
  | nil => intro L acc _; simp [drainLoop_nil, eraseStore]
  | cons e rest ih =>
    obtain ⟨a, j⟩ := e
    intro L acc hn
    simp only [List.map_cons, List.nodup_cons] at hn
    cases L with
    | zero => simp [drainLoop_nil, eraseStore]
    | succ L =>
      rw [List.map_cons, List.take_succ_cons, drainLoop_cons]
      by_cases hak : a = k
      · subst hak
        have hdk : drainKey (faultOn a o) ((a, j) :: rest) acc a = ((a, j) :: rest, acc) := by
          cases o with
          | ok => exact absurd rfl ho
          | err => simp [drainKey, faultOn]
          | absent => simp [drainKey, faultOn]
        have hnotin : a ∉ (rest.map Prod.fst).take L :=
          fun hmem => hn.1 (List.take_subset _ _ hmem)
        rw [hdk, drainLoop_cons_notin (faultOn a o) _ a j rest acc hnotin,
          ih L acc hn.2]
        simp [List.filter_cons, eraseStore]
      · have hdk : drainKey (faultOn k o) ((a, j) :: rest) acc a = (rest, acc ++ [j]) := by
          simp [drainKey, faultOn, hak, lookupStore, eraseStore, eraseStore_of_not_mem hn.1]
        rw [hdk, ih L (acc ++ [j]) hn.2]
        simp [List.filter_cons, eraseStore, hak]

lemma drainLoop_claimed_deleted (f : Faults) :
    ∀ (ks : List String) (st : Store) (acc : List EmailJob),
      (∀ e ∈ st, e.2.id = e.1) →
      (∀ j ∈ acc, lookupStore st j.id = none) →
      (∀ e ∈ (drainLoop f st ks acc).1, e.2.id = e.1) ∧
        (∀ j ∈ (drainLoop f st ks acc).2,
          lookupStore (drainLoop f st ks acc).1 j.id = none) := by
  intro ks
  induction ks with
  | nil =>
    intro st acc hwf hacc
    exact ⟨by simpa [drainLoop_nil] using hwf, by simpa [drainLoop_nil] using hacc⟩
  | cons q ks ih =>
    intro st acc hwf hacc
    rw [drainLoop_cons]
    cases hg : f.getFault q with
    | err =>
      have hdk : drainKey f st acc q = (st, acc) := by simp [drainKey, hg]
      rw [hdk]
      exact ih st acc hwf hacc
    | absent =>
      have hdk : drainKey f st acc q = (st, acc) := by simp [drainKey, hg]
      rw [hdk]
      exact ih st acc hwf hacc
    | ok =>
      cases hl : lookupStore st q with
      | none =>
        have hdk : drainKey f st acc q = (st, acc) := by simp [drainKey, hg, hl]
        rw [hdk]
        exact ih st acc hwf hacc
      | some v =>
        by_cases hd : f.deleteFault q
        · have hdk : drainKey f st acc q = (st, acc) := by simp [drainKey, hg, hl, hd]
          rw [hdk]
          exact ih st acc hwf hacc
        · have hdk : drainKey f st acc q = (eraseStore st q, acc ++ [v]) := by
            simp [drainKey, hg, hl, hd]
          rw [hdk]
          have hvq : v.id = q := hwf (q, v) (lookup_mem hl)
          refine ih (eraseStore st q) (acc ++ [v]) (fun e he => hwf e (mem_eraseStore he)) ?_
          intro j hj
          rcases List.mem_append.mp hj with hj | hj
          · by_cases hjq : j.id = q
            · rw [hjq]
              exact lookup_eraseStore_self st q
            · rw [lookup_eraseStore_ne st q j.id hjq]
              exact hacc j hj
          · rw [List.mem_singleton.mp hj, hvq]
            exact lookup_eraseStore_self st q

lemma processEmailQueue_ok (cfg : DrainConfig) (f : Faults) (req : DrainRequest) (st : Store)
    (hm : req.httpMethod = "POST") (ha : validateApiKey cfg req.authHeader = true)
    (hl : f.listFault = false) :
    processEmailQueue cfg f req st
      = ({ statusCode := 200
           jobs := (drainLoop f st ((st.map Prod.fst).take (resolveLimit cfg req.limit)) []).2
           returned :=
             (drainLoop f st ((st.map Prod.fst).take (resolveLimit cfg req.limit)) []).2.length
           error := none },
         (drainLoop f st ((st.map Prod.fst).take (resolveLimit cfg req.limit)) []).1) := by
  unfold processEmailQueue
  simp [hm, ha, hl]

/-- Claim C1: for every drain call that produces a 200 response, every record
present in the returned jobs batch has been deleted from the store by the time
the response is produced; a record appears in a batch only if its delete was
performed. (Stores written by this system key each record by its own id.) -/
theorem drain_batch_records_deleted (cfg : DrainConfig) (f : Faults) (req : DrainRequest)
    (st : Store) (hwf : ∀ e ∈ st, e.2.id = e.1)
    (h200 : (processEmailQueue cfg f req st).1.statusCode = 200) :
    ∀ j ∈ (processEmailQueue cfg f req st).1.jobs,
      lookupStore (processEmailQueue cfg f req st).2 j.id = none := by
  by_cases hm : req.httpMethod = "POST"
  · by_cases ha : validateApiKey cfg req.authHeader = true
    · by_cases hl : f.listFault
      · rw [processEmailQueue] at h200
        simp [hm, ha, hl] at h200
      · rw [processEmailQueue_ok cfg f req st hm ha (by simpa using hl)]
        exact (drainLoop_claimed_deleted f _ st [] hwf (by simp)).2
    · rw [processEmailQueue] at h200
      simp [hm, ha] at h200
  · rw [processEmailQueue] at h200
    simp [hm] at h200

/-- Witness for C1: a clean drain of a one-record store. -/
theorem drain_batch_records_deleted_witness :
    (∀ e ∈ ([("job-1", sampleJob)] : Store), e.2.id = e.1) ∧
    (processEmailQueue ⟨none, 10⟩ cleanFaults ⟨"POST", none, none⟩
        [("job-1", sampleJob)]).1.statusCode = 200 ∧
    ∀ j ∈ (processEmailQueue ⟨none, 10⟩ cleanFaults ⟨"POST", none, none⟩
        [("job-1", sampleJob)]).1.jobs,
      lookupStore (processEmailQueue ⟨none, 10⟩ cleanFaults ⟨"POST", none, none⟩
        [("job-1", sampleJob)]).2 j.id = none :=
  ⟨by decide, by decide,
    drain_batch_records_deleted ⟨none, 10⟩ cleanFaults ⟨"POST", none, none⟩
      [("job-1", sampleJob)] (by decide) (by decide)⟩

/-- Claim C2: a drain with positive limit `L` and no store failures on a store of
`K` pending records answers 200; when `K ≤ L` it returns exactly `K` records and
empties the store; when `K > L` it returns exactly `L` records and leaves
exactly `K - L` in the store. -/
theorem drain_exact_counts (cfg : DrainConfig) (auth : Option String) (st : Store) (L : Nat)
    (hn : (st.map Prod.fst).Nodup) (hauth : validateApiKey cfg auth = true) (hL : L ≠ 0) :
    (processEmailQueue cfg cleanFaults ⟨"POST", auth, some L⟩ st).1.statusCode = 200 ∧
    (st.length ≤ L →
      (processEmailQueue cfg cleanFaults ⟨"POST", auth, some L⟩ st).1.returned = st.length ∧
      (processEmailQueue cfg cleanFaults ⟨"POST", auth, some L⟩ st).2 = []) ∧
    (L < st.length →
      (processEmailQueue cfg cleanFaults ⟨"POST", auth, some L⟩ st).1.returned = L ∧
      (processEmailQueue cfg cleanFaults ⟨"POST", auth, some L⟩ st).2.length
        = st.length - L) := by
  have hres := processEmailQueue_ok cfg cleanFaults ⟨"POST", auth, some L⟩ st rfl hauth rfl
  rw [show resolveLimit cfg (some L) = L from by simp [resolveLimit, hL]] at hres
  rw [drainLoop_clean st L [] hn] at hres
  rw [hres]
  refine ⟨rfl, fun hKL => ⟨?_, ?_⟩, fun hLK => ⟨?_, ?_⟩⟩
  · simp [List.length_take, Nat.min_eq_right hKL]
  · simpa using List.drop_eq_nil_of_le hKL
  · simp [List.length_take, Nat.min_eq_left (le_of_lt hLK)]
  · simp [List.length_drop]

/-- Witness for C2: a two-record store drained with limit 1 returns one record
and leaves one. -/
theorem drain_exact_counts_witness :
    (([("job-1", sampleJob), ("job-2", sampleJob2)] : Store).map Prod.fst).Nodup ∧
    validateApiKey ⟨none, 10⟩ none = true ∧
    (1 : Nat) ≠ 0 ∧
    (processEmailQueue ⟨none, 10⟩ cleanFaults ⟨"POST", none, some 1⟩
        [("job-1", sampleJob), ("job-2", sampleJob2)]).1.returned = 1 ∧
    (processEmailQueue ⟨none, 10⟩ cleanFaults ⟨"POST", none, some 1⟩
        [("job-1", sampleJob), ("job-2", sampleJob2)]).2.length = 1 :=
  ⟨by decide, by decide, by decide,
    ((drain_exact_counts ⟨none, 10⟩ none [("job-1", sampleJob), ("job-2", sampleJob2)] 1
        (by decide) (by decide) (by decide)).2.2 (by decide)).1,
    ((drain_exact_counts ⟨none, 10⟩ none [("job-1", sampleJob), ("job-2", sampleJob2)] 1
        (by decide) (by decide) (by decide)).2.2 (by decide)).2⟩

/-- Claim C3: with a configured shared secret, a drain call whose bearer token is
missing or does not match answers 401 and returns the store unchanged (no store
access happens: the 401 branch precedes `getStore`); with no secret configured,
every request passes the auth check. -/
theorem drain_auth_gate :
    (∀ (cfg : DrainConfig) (key : String) (f : Faults) (st : Store) (req : DrainRequest),
        req.httpMethod = "POST" →
        jsTruthy cfg.apiKey = some key →
        (∀ h, req.authHeader = some h → stripBearer h ≠ key) →
        processEmailQueue cfg f req st
          = ({ statusCode := 401, jobs := [], returned := 0, error := some "Unauthorized" },
             st)) ∧
    (∀ (cfg : DrainConfig) (auth : Option String),
        jsTruthy cfg.apiKey = none → validateApiKey cfg auth = true) := by
  constructor
  · intro cfg key f st req hm hk hne
    have hv : validateApiKey cfg req.authHeader = false := by
      rw [validateApiKey, hk]
      cases hah : req.authHeader with
      | none => rfl
      | some h => simp [hne h hah]
    unfold processEmailQueue
    simp [hm, hv]
  · intro cfg auth hk
    rw [validateApiKey, hk]

/-- Witness for C3: a wrong bearer token against a configured key yields 401 and
an unchanged store; with no key configured the check passes. -/
theorem drain_auth_gate_witness :
    processEmailQueue ⟨some "sekrit", 10⟩ cleanFaults
        ⟨"POST", some "Bearer wrong", none⟩ [("job-1", sampleJob)]
      = ({ statusCode := 401, jobs := [], returned := 0, error := some "Unauthorized" },
         [("job-1", sampleJob)]) ∧
    validateApiKey ⟨none, 10⟩ (some "whatever") = true :=
  ⟨drain_auth_gate.1 ⟨some "sekrit", 10⟩ "sekrit" cleanFaults [("job-1", sampleJob)]
      ⟨"POST", some "Bearer wrong", none⟩ rfl (by decide)
      (fun h hh => by cases hh; decide),
    drain_auth_gate.2 ⟨none, 10⟩ (some "whatever") (by decide)⟩

/-- Claim C4: a `get` failure (a throw, or an absent result) for a single
selected key only skips that key: its record is not in the batch, its delete is
never attempted (the record is still stored afterwards), the other selected
keys are still processed (the batch holds one record per other selected key),
and the call still answers 200. -/
theorem drain_single_get_fault_scoped (cfg : DrainConfig) (auth : Option String)
    (st : Store) (k : String) (o : GetOutcome) (L : Nat)
    (hn : (st.map Prod.fst).Nodup) (hwf : ∀ e ∈ st, e.2.id = e.1)
    (hauth : validateApiKey cfg auth = true) (ho : o ≠ GetOutcome.ok) (hL : L ≠ 0)
    (hk : k ∈ (st.map Prod.fst).take L) :
    (processEmailQueue cfg (faultOn k o) ⟨"POST", auth, some L⟩ st).1.statusCode = 200 ∧
    (∀ j ∈ (processEmailQueue cfg (faultOn k o) ⟨"POST", auth, some L⟩ st).1.jobs,
        j.id ≠ k) ∧
    lookupStore (processEmailQueue cfg (faultOn k o) ⟨"POST", auth, some L⟩ st).2 k
      = lookupStore st k ∧
    (processEmailQueue cfg (faultOn k o) ⟨"POST", auth, some L⟩ st).1.returned + 1
      = ((st.map Prod.fst).take L).length := by
  have hres := processEmailQueue_ok cfg (faultOn k o) ⟨"POST", auth, some L⟩ st rfl hauth rfl
  rw [show resolveLimit cfg (some L) = L from by simp [resolveLimit, hL]] at hres
  rw [drainLoop_faultOn k o ho st L [] hn] at hres
  rw [hres]
  refine ⟨rfl, ?_, ?_, ?_⟩
  · intro j hj
    simp only [List.nil_append, List.mem_map] at hj
    obtain ⟨e, he, hej⟩ := hj
    have h1 : e ∈ st := List.take_subset L st (mem_eraseStore he)
    have h2 : e.1 ≠ k := mem_eraseStore_fst_ne he
    rw [← hej, hwf e h1]
    exact h2
  · conv_rhs => rw [← List.take_append_drop L st]
    rw [lookup_append, lookup_filter_eq, lookup_append]
  · have htn : ((st.take L).map Prod.fst).Nodup := by
      rw [List.map_take]
      exact (List.take_sublist _ _).nodup hn
    have hkm : k ∈ (st.take L).map Prod.fst := by
      rw [List.map_take]
      exact hk
    simp only [List.nil_append, List.length_map]
    rw [← List.map_take, List.length_map]
    exact length_eraseStore_add_one htn hkm

/-- Witness for C4: three pending records, `get` throwing for the middle key,
drained with limit 3. -/
theorem drain_single_get_fault_scoped_witness :
    (processEmailQueue ⟨none, 10⟩ (faultOn "job-2" GetOutcome.err) ⟨"POST", none, some 3⟩
        [("job-1", sampleJob), ("job-2", sampleJob2), ("job-3", sampleJob3)]).1.statusCode
      = 200 ∧
    (∀ j ∈ (processEmailQueue ⟨none, 10⟩ (faultOn "job-2" GetOutcome.err)
        ⟨"POST", none, some 3⟩
        [("job-1", sampleJob), ("job-2", sampleJob2), ("job-3", sampleJob3)]).1.jobs,
      j.id ≠ "job-2") ∧
    lookupStore (processEmailQueue ⟨none, 10⟩ (faultOn "job-2" GetOutcome.err)
        ⟨"POST", none, some 3⟩
        [("job-1", sampleJob), ("job-2", sampleJob2), ("job-3", sampleJob3)]).2 "job-2"
      = lookupStore [("job-1", sampleJob), ("job-2", sampleJob2), ("job-3", sampleJob3)]
          "job-2" ∧
    (processEmailQueue ⟨none, 10⟩ (faultOn "job-2" GetOutcome.err) ⟨"POST", none, some 3⟩
        [("job-1", sampleJob), ("job-2", sampleJob2), ("job-3", sampleJob3)]).1.returned + 1
      = ((([("job-1", sampleJob), ("job-2", sampleJob2), ("job-3", sampleJob3)] : Store).map
          Prod.fst).take 3).length :=
  drain_single_get_fault_scoped ⟨none, 10⟩ none
    [("job-1", sampleJob), ("job-2", sampleJob2), ("job-3", sampleJob3)]
    "job-2" GetOutcome.err 3 (by decide) (by decide) (by decide) (by decide) (by decide)
    (by decide)

/-- Claim C5: with an unspecified provider name, or one that is (after
lowercasing) none of sendgrid / mailgun / netlify-blobs / console, the factory
deterministically selects the console strategy, whose send performs zero
network calls. -/
theorem factory_fail_safe_default (env : Env)
    (h : jsTruthy env.emailProvider = none ∨
      strLower (jsOr env.emailProvider "console") ∉
        (["sendgrid", "mailgun", "netlify-blobs", "console"] : List String)) :
    createEmailService env
      = .ok (.console (jsOr env.emailFrom "noreply@example.com")
          (jsOr env.emailFromName "Pressure Campaign")) ∧
    ∀ s, createEmailService env = .ok s → networkCallsOf s = 0 := by
  have hcons : ∀ (p : String), strLower p ≠ "sendgrid" → strLower p ≠ "mailgun" →
      strLower p ≠ "netlify-blobs" → jsOr env.emailProvider "console" = p →
      createEmailService env
        = .ok (.console (jsOr env.emailFrom "noreply@example.com")
            (jsOr env.emailFromName "Pressure Campaign")) := by
    intro p h1 h2 h3 hp
    simp only [createEmailService]
    rw [hp, if_neg h1, if_neg h2, if_neg h3]
  have hmain : createEmailService env
      = .ok (.console (jsOr env.emailFrom "noreply@example.com")
          (jsOr env.emailFromName "Pressure Campaign")) := by
    rcases h with h | h
    · exact hcons "console" (by decide) (by decide) (by decide) (by rw [jsOr, h])
    · simp only [List.mem_cons, List.not_mem_nil, or_false, not_or] at h
      exact hcons _ h.1 h.2.1 h.2.2.1 rfl
  refine ⟨hmain, fun s hs => ?_⟩
  rw [hmain] at hs
  cases hs
  rfl

/-- Witness for C5: the unrecognized provider name `smtp` falls back to the
console strategy. -/
theorem factory_fail_safe_default_witness :
    (strLower (jsOr (some "smtp") "console") ∉
      (["sendgrid", "mailgun", "netlify-blobs", "console"] : List String)) ∧
    createEmailService { emailProvider := some "smtp" }
      = .ok (.console "noreply@example.com" "Pressure Campaign") ∧
    networkCallsOf (.console "noreply@example.com" "Pressure Campaign") = 0 :=
  ⟨by decide,
    (factory_fail_safe_default { emailProvider := some "smtp" } (Or.inr (by decide))).1,
    (factory_fail_safe_default { emailProvider := some "smtp" } (Or.inr (by decide))).2
      (.console "noreply@example.com" "Pressure Campaign")
      (factory_fail_safe_default { emailProvider := some "smtp" } (Or.inr (by decide))).1⟩

/-- Claim C6: the queue strategy's send performs exactly one store write (the
`putStore` of the built record) and no network call; on a successful write it
returns success with `messageId` equal to the persisted record's id, which is
also the store key; a failing write returns a failure result with an error and
persists nothing. -/
theorem queue_write_semantics (fromEmail fromName jobId : String) (now : Nat)
    (putErr : Option String) (options : EmailOptions) (st : Store) :
    netlifyBlobsSendEmail fromEmail fromName jobId now true none options st
      = ({ success := true, messageId := some jobId, error := none },
         putStore st jobId (mkEmailJob fromEmail fromName jobId now options)) ∧
    lookupStore (netlifyBlobsSendEmail fromEmail fromName jobId now true none options st).2
        jobId = some (mkEmailJob fromEmail fromName jobId now options) ∧
    (mkEmailJob fromEmail fromName jobId now options).id = jobId ∧
    networkCallsOf (.netlifyBlobs fromEmail fromName "email-queue") = 0 ∧
    netlifyBlobsSendEmail fromEmail fromName jobId now false putErr options st
      = ({ success := false, messageId := none
           error := some (putErr.getD "Unknown error") }, st) :=
  ⟨rfl, lookup_putStore_self st jobId _, rfl, rfl, rfl⟩

/-- Counterexample to claim C7 as stated: for the request with `cc = ""` (an
ordinary value of the declared type `string | string[]`), the persisted and
drained record's `cc` is absent — the source's truthiness check takes the
`undefined` branch on the falsy empty string — while the request's `cc`
normalized to an array is `some [""]`, so the drained record's `cc` does not
exactly equal the request's value. -/
theorem round_trip_fidelity_counterexample :
    (processEmailQueue ⟨none, 10⟩ cleanFaults ⟨"POST", none, some 1⟩
        (netlifyBlobsSendEmail "noreply@example.com" "Pressure Campaign" "job-1" 0 true none
          { «to» := Recipients.one "mp@example.org", cc := some (Recipients.one ""),
            subject := "S", text := "T" } []).2).1.jobs.map EmailJob.cc = [none] ∧
    ({ «to» := Recipients.one "mp@example.org", cc := some (Recipients.one ""),
        subject := "S", text := "T" } : EmailOptions).cc.map normalizeRecipients
      = some [""] := by
  decide

/-- Claim C7, amended: enqueueing a request into an empty store and draining
with limit 1 returns exactly the persisted record, whose fields equal the
request's values: normalized `to`, subject, text, html, sender fields with
their configured-default fallback, plus the generated id and createdAt, and
whose `cc`/`bcc` are the request's values normalized to arrays when present
and truthy, but absent when the request's field is absent or the (falsy)
empty string; the store is empty afterwards. -/
theorem round_trip_fidelity (fromEmail fromName jobId : String) (now : Nat)
    (options : EmailOptions) :
    (netlifyBlobsSendEmail fromEmail fromName jobId now true none options []).1.success
      = true ∧
    (processEmailQueue ⟨none, 10⟩ cleanFaults ⟨"POST", none, some 1⟩
        (netlifyBlobsSendEmail fromEmail fromName jobId now true none options
          []).2).1.statusCode = 200 ∧
    (processEmailQueue ⟨none, 10⟩ cleanFaults ⟨"POST", none, some 1⟩
        (netlifyBlobsSendEmail fromEmail fromName jobId now true none options []).2).1.jobs
      = [mkEmailJob fromEmail fromName jobId now options] ∧
    (processEmailQueue ⟨none, 10⟩ cleanFaults ⟨"POST", none, some 1⟩
        (netlifyBlobsSendEmail fromEmail fromName jobId now true none options []).2).2
      = [] ∧
    (mkEmailJob fromEmail fromName jobId now options).«to»
      = normalizeRecipients options.«to» ∧
    (mkEmailJob fromEmail fromName jobId now options).cc
      = normalizeOptField options.cc ∧
    (mkEmailJob fromEmail fromName jobId now options).bcc
      = normalizeOptField options.bcc ∧
    normalizeOptField none = none ∧
    normalizeOptField (some (Recipients.one "")) = none ∧
    (∀ l, normalizeOptField (some (Recipients.many l)) = some l) ∧
    (mkEmailJob fromEmail fromName jobId now options).subject = options.subject ∧
    (mkEmailJob fromEmail fromName jobId now options).text = options.text ∧
    (mkEmailJob fromEmail fromName jobId now options).html = options.html ∧
    (mkEmailJob fromEmail fromName jobId now options).«from»
      = getSender fromEmail options.«from» ∧
    (mkEmailJob fromEmail fromName jobId now options).fromName
      = getSenderName fromName options.fromName ∧
    (mkEmailJob fromEmail fromName jobId now options).id = jobId ∧
    (mkEmailJob fromEmail fromName jobId now options).createdAt = now ∧
    getSender fromEmail none = fromEmail ∧
    getSenderName fromName none = fromName := by
  refine ⟨rfl, ?_, ?_, ?_, rfl, rfl, rfl, rfl, rfl, fun l => rfl, rfl, rfl, rfl, rfl, rfl,
    rfl, rfl, rfl, rfl⟩ <;>
    simp [netlifyBlobsSendEmail, putStore, eraseStore, processEmailQueue, validateApiKey,
      jsTruthy, resolveLimit, drainLoop_cons, drainLoop_nil, drainKey, cleanFaults,
      lookupStore]

/-- Claim C8: the network-provider strategies never surface an uncaught fault: a
thrown transport or serialization error becomes `{success := false, error}`
with the thrown message, and a non-ok provider HTTP response becomes
`{success := false, error := "<Provider> API error: <status>"}`. -/
theorem provider_faults_converted (apiKey dom fromEmail fromName : String) (now : Nat)
    (options : EmailOptions) (msg : Option String) (status : Nat) :
    sendGridSend apiKey fromEmail fromName now options (.throws msg)
      = { success := false, messageId := none, error := some (msg.getD "Unknown error") } ∧
    sendGridSend apiKey fromEmail fromName now options (.badResponse status)
      = { success := false, messageId := none
          error := some ("SendGrid API error: " ++ toString status) } ∧
    mailgunSend apiKey dom fromEmail fromName options (.throws msg)
      = { success := false, messageId := none, error := some (msg.getD "Unknown error") } ∧
    mailgunSend apiKey dom fromEmail fromName options (.badResponse status)
      = { success := false, messageId := none
          error := some ("Mailgun API error: " ++ toString status) } :=
  ⟨rfl, rfl, rfl, rfl⟩

/-- Claim C9: a drain request with `limit = 0` (falsy) behaves exactly as if the
limit were absent: the configured default batch size is used, so a zero limit
still claims records (it cannot be used to peek at the queue). -/
theorem limit_zero_uses_default (cfg : DrainConfig) (f : Faults) (st : Store)
    (method : String) (auth : Option String) :
    processEmailQueue cfg f ⟨method, auth, some 0⟩ st
      = processEmailQueue cfg f ⟨method, auth, none⟩ st ∧
    resolveLimit cfg (some 0) = cfg.defaultBatchSize ∧
    resolveLimit cfg none = cfg.defaultBatchSize ∧
    (processEmailQueue ⟨none, 10⟩ cleanFaults ⟨"POST", none, some 0⟩
        [("job-1", sampleJob)]).1.returned = 1 :=
  ⟨rfl, rfl, rfl, by decide⟩

/-- Claim C10: a recognized network provider with missing required credentials
makes the factory raise an error rather than construct a service or fall back
to console: sendgrid with no API key, and mailgun with no API key or no
domain. -/
theorem factory_missing_credentials_error (env env' : Env)
    (hs : strLower (jsOr env.emailProvider "console") = "sendgrid")
    (hk : jsTruthy (getEnvVar env.emailSendgridApiKey env.emailApiKey) = none)
    (hm : strLower (jsOr env'.emailProvider "console") = "mailgun")
    (hmk : jsTruthy (getEnvVar env'.emailMailgunApiKey env'.emailApiKey) = none ∨
      jsTruthy (getEnvVar env'.emailMailgunDomain env'.mailgunDomain) = none) :
    createEmailService env = .error "EMAIL_SENDGRID_API_KEY is required for SendGrid" ∧
    createEmailService env'
      = .error "EMAIL_MAILGUN_API_KEY and EMAIL_MAILGUN_DOMAIN are required for Mailgun" := by
  constructor
  · simp only [createEmailService]
    rw [if_pos hs, hk]
  · simp only [createEmailService]
    rw [if_neg (by rw [hm]; decide), if_pos hm]
    rcases hmk with hmk | hmk
    · rw [hmk]
    · rw [hmk]
      cases jsTruthy (getEnvVar env'.emailMailgunApiKey env'.emailApiKey) <;> rfl

/-- Witness for C10: sendgrid configured with no key, and mailgun configured
with a key but no domain. -/
theorem factory_missing_credentials_error_witness :
    strLower (jsOr (Env.emailProvider { emailProvider := some "sendgrid" }) "console")
      = "sendgrid" ∧
    createEmailService { emailProvider := some "sendgrid" }
      = .error "EMAIL_SENDGRID_API_KEY is required for SendGrid" ∧
    createEmailService { emailProvider := some "mailgun", emailMailgunApiKey := some "k" }
      = .error "EMAIL_MAILGUN_API_KEY and EMAIL_MAILGUN_DOMAIN are required for Mailgun" :=
  ⟨by decide,
    (factory_missing_credentials_error { emailProvider := some "sendgrid" }
      { emailProvider := some "mailgun", emailMailgunApiKey := some "k" }
      (by decide) (by decide) (by decide) (Or.inr (by decide))).1,
    (factory_missing_credentials_error { emailProvider := some "sendgrid" }
      { emailProvider := some "mailgun", emailMailgunApiKey := some "k" }
      (by decide) (by decide) (by decide) (Or.inr (by decide))).2⟩

end Pressure
